import Mathlib

/-!
Verification of the nflz rename-planning engine.

This file gives a shallow embedding of the core pipeline of the nflz
library (src/math.rs, src/file_info.rs, src/nflz.rs) and proves or
refutes the specified properties about it.

Modelling conventions:
* Filenames and paths are `List Char`.  All the filenames the claims talk
  about are ASCII, where Rust's byte indices coincide with char indices.
* Rust `u64` values are `Nat`; where overflow or underflow matters the
  bound `2 ^ 64` respectively the explicit comparison appears in the
  definition.
* Panics (`assert_ne!`, arithmetic underflow, `expect`) are modelled by
  `Option`: `none` is a panic.
* Fallible functions return `Except NFLZError`.
* Filesystem state is an explicit parameter: an existence predicate
  `List Char → Bool` for validation, and a rename oracle
  `List Char → List Char → Option IoError` for execution (`none` =
  success).  Paths are directory-relative, i.e. a path inside the working
  directory is identified with its filename.
-/

namespace NFLZ

/-- Abstract stand-in for `std::io::Error` values.  The library only ever
carries such values inside its own errors; it never inspects them. -/
structure IoError where
  code : Nat
deriving DecidableEq, Repr

/-- Embedding of `NFLZError` from src/error.rs.  String payloads are
`List Char`; the sets carried by the ambiguity errors are `Finset`s
mirroring Rust's `HashSet<String>`. -/
inductive NFLZError where
  | FilenameMustIncludeExactlyOneNumberedGroup (filename : List Char)
  | ValueInNumberedGroupNotANumber (value : List Char)
  | CantReadDirectory (path : List Char) (err : IoError)
  | ConflictingFiles (paths : List (List Char))
  | RenameFailed (oldName newName : List Char) (err : IoError)
  | AmbiguousPrefixes (prefixes : Finset (List Char))
  | AmbiguousSuffixes (suffixes : Finset (List Char))
deriving DecidableEq

instance {ε α : Type _} [DecidableEq ε] [DecidableEq α] : DecidableEq (Except ε α) :=
  fun x y =>
    match x, y with
    | .ok a, .ok b => if h : a = b then .isTrue (by rw [h]) else .isFalse (by simp [h])
    | .ok _, .error _ => .isFalse (by simp)
    | .error _, .ok _ => .isFalse (by simp)
    | .error e, .error f => if h : e = f then .isTrue (by rw [h]) else .isFalse (by simp [h])

/-- Fuel-indexed helper for the digit count: divides by ten until zero.
The fuel is only there to make the recursion structural; `fuel ≥ n`
always suffices (see `countDigitsAux_eq_clog`). -/
def countDigitsAux : Nat → Nat → Nat
  | _, 0 => 0
  | 0, _ + 1 => 1
  | fuel + 1, n + 1 => countDigitsAux fuel ((n + 1) / 10) + 1

/-- Embedding of `count_digits_without_leading_zeroes` from src/math.rs.
The source computes `ceil(log10(n + 1))` by converting `n + 1` to `f64`
and calling `log10().ceil()`; this embedding is the exact integer value
of that formula, `Nat.clog 10 (n + 1)` (see
`count_digits_eq_clog`), which the float pipeline realises for all inputs
small enough for the `u64 → f64` conversion to be exact.  The deviation of
the float pipeline on larger inputs is treated separately with
`roundToF64`. -/
def count_digits_without_leading_zeroes (n : Nat) : Nat :=
  countDigitsAux n n

/-- The fuel-indexed digit count computes `Nat.clog 10 (n + 1)` whenever
the fuel is at least `n`. -/
theorem countDigitsAux_eq_clog :
    ∀ (fuel n : Nat), n ≤ fuel → countDigitsAux fuel n = Nat.clog 10 (n + 1) := by
  intro fuel
  induction fuel with
  | zero =>
    intro n hn
    interval_cases n
    simp [countDigitsAux]
  | succ fuel ih =>
    intro n hn
    match n with
    | 0 => simp [countDigitsAux]
    | n + 1 =>
      have hdiv : (n + 1) / 10 ≤ fuel := by
        have : (n + 1) / 10 ≤ n := Nat.lt_succ_iff.mp (Nat.div_lt_self (Nat.succ_pos n) (by omega))
        omega
      have hrec := ih ((n + 1) / 10) hdiv
      have hclog : Nat.clog 10 (n + 1 + 1) = Nat.clog 10 ((n + 1 + 1 + 10 - 1) / 10) + 1 :=
        Nat.clog_of_two_le (by omega) (by omega)
      have harg : (n + 1 + 1 + 10 - 1) / 10 = (n + 1) / 10 + 1 := by
        omega
      rw [countDigitsAux, hrec, hclog, harg]

/-- The digit count is exactly `⌈log10 (n + 1)⌉`. -/
theorem count_digits_eq_clog (n : Nat) :
    count_digits_without_leading_zeroes n = Nat.clog 10 (n + 1) :=
  countDigitsAux_eq_clog n n (Nat.le_refl n)

/-- The digit count is monotone. -/
theorem count_digits_mono {m n : Nat} (h : m ≤ n) :
    count_digits_without_leading_zeroes m ≤ count_digits_without_leading_zeroes n := by
  rw [count_digits_eq_clog, count_digits_eq_clog]
  exact Nat.clog_mono_right 10 (by omega)

example : count_digits_without_leading_zeroes 0 = 0 := by decide
example : count_digits_without_leading_zeroes 9 = 1 := by decide
example : count_digits_without_leading_zeroes 10 = 2 := by decide
example : count_digits_without_leading_zeroes 999 = 3 := by decide

/-- One left-to-right pass of the automaton of the regex `(\([0-9]+\))`
used by `get_number_group_indices_from_actual_filename` in
src/file_info.rs.  The arguments are the remaining input, the index of
its first character in the whole filename, and the scanner state: `none`
when no partial match is open, `some (s, k)` when a `'('` was read at
index `s` followed by `k` digits.  A match is emitted when a closing
parenthesis follows at least one digit; the scan then restarts after the
match, exactly like `Regex::find_iter` (leftmost, non-overlapping, with
the digit run maximal). -/
def findIterAux : List Char → Nat → Option (Nat × Nat) → List (Nat × Nat)
  | [], _, _ => []
  | c :: rest, i, none =>
    if c = '(' then findIterAux rest (i + 1) (some (i, 0))
    else findIterAux rest (i + 1) none
  | c :: rest, i, some (s, k) =>
    if c.isDigit then findIterAux rest (i + 1) (some (s, k + 1))
    else if c = ')' ∧ 0 < k then (s, i + 1) :: findIterAux rest (i + 1) none
    else if c = '(' then findIterAux rest (i + 1) (some (i, 0))
    else findIterAux rest (i + 1) none

/-- All non-overlapping matches of `(\([0-9]+\))` in a filename, as
half-open index spans with the parentheses included, in order. -/
def regexFindIter (l : List Char) : List (Nat × Nat) :=
  findIterAux l 0 none

/-- Embedding of `get_number_group_indices_from_actual_filename` from
src/file_info.rs: exactly one match is required, and the returned span
excludes the parentheses.  (The source stores the indices as `u16`; the
truncation for filenames of 2^16 or more characters is not modelled.) -/
def get_number_group_indices_from_actual_filename
    (actual_filename : List Char) : Except NFLZError (Nat × Nat) :=
  match regexFindIter actual_filename with
  | [(a, b)] => .ok (a + 1, b - 1)
  | _ => .error (.FilenameMustIncludeExactlyOneNumberedGroup actual_filename)

/-- `sliceChars l a b` is the Rust slice `&l[a..b]` on chars. -/
def sliceChars (l : List Char) (a b : Nat) : List Char :=
  (l.drop a).take (b - a)

/-- Numeric value of a digit string, most significant digit first. -/
def digitsToNat (s : List Char) : Nat :=
  s.foldl (fun acc c => acc * 10 + (c.toNat - '0'.toNat)) 0

/-- Embedding of `u64::from_str`: succeeds on a non-empty all-digit
string whose value fits in 64 bits. -/
def parseU64 (s : List Char) : Option Nat :=
  if s ≠ [] ∧ s.all Char.isDigit then
    if digitsToNat s < 2 ^ 64 then some (digitsToNat s) else none
  else
    none

/-- Embedding of `FileInfo` from src/file_info.rs.  The `path` field is
dropped: paths are directory-relative, so the filename identifies the
file within the ambient working directory. -/
structure FileInfo where
  original_filename : List Char
  number_group_indices : Nat × Nat
  number_group_str : List Char
  number_group_value : Nat
deriving DecidableEq

/-- Embedding of `FileInfo::new`. -/
def FileInfo.new (filename : List Char) : Except NFLZError FileInfo :=
  match get_number_group_indices_from_actual_filename filename with
  | .error e => .error e
  | .ok (a, b) =>
    let s := sliceChars filename a b
    match parseU64 s with
    | none => .error (.ValueInNumberedGroupNotANumber s)
    | some v =>
      .ok { original_filename := filename
            number_group_indices := (a, b)
            number_group_str := s
            number_group_value := v }

/-- Embedding of `FileInfo::filename_prefix`: the part of the filename
before the number group, opening parenthesis included. -/
def prefix_of (fi : FileInfo) : List Char :=
  fi.original_filename.take fi.number_group_indices.1

/-- Embedding of `FileInfo::filename_suffix`: the part of the filename
after the number group, closing parenthesis included. -/
def suffix_of (fi : FileInfo) : List Char :=
  fi.original_filename.drop fi.number_group_indices.2

example :
    FileInfo.new "img (100).jpg".toList =
      .ok { original_filename := "img (100).jpg".toList
            number_group_indices := (5, 8)
            number_group_str := "100".toList
            number_group_value := 100 } := by decide

example :
    (FileInfo.new "img (1) (100)".toList).toOption = none := by decide

/-- Embedding of `FileInfoWithRenameAdvice` from src/file_info.rs. -/
structure FileInfoWithRenameAdvice where
  file_info : FileInfo
  new_filename : Option (List Char)
deriving DecidableEq

/-- Embedding of `FileInfoWithRenameAdvice::new` from src/file_info.rs.
`none` models a panic:
* `assert_ne!(max_digits, 0)` fails,
* the `u64` subtraction `max_digits - digits` underflows (a debug-build
  arithmetic panic; the spec calls this branch a failure as well), or
* `assert_ne!(original_filename, new_filename)` fails, which happens when
  zeroes are to be added yet the synthesized name already equals the
  original one.
Note that the source decides "no rename needed" purely by
`digits_to_add_count == 0`, i.e. by comparing digit counts, not by
comparing the synthesized name with the original one. -/
def FileInfoWithRenameAdvice.new (file_info : FileInfo) (max_digits : Nat) :
    Option FileInfoWithRenameAdvice :=
  if max_digits = 0 then
    none
  else
    let digits := count_digits_without_leading_zeroes file_info.number_group_value
    if max_digits < digits then
      none
    else
      let digits_to_add_count := max_digits - digits
      if digits_to_add_count = 0 then
        some { file_info, new_filename := none }
      else
        let value_str_with_leading_zeros :=
          List.replicate digits_to_add_count '0' ++
            Nat.toDigits 10 file_info.number_group_value
        let new_filename :=
          prefix_of file_info ++ value_str_with_leading_zeros ++ suffix_of file_info
        if file_info.original_filename = new_filename then
          none
        else
          some { file_info, new_filename := some new_filename }

/-- Embedding of `FileInfoWithRenameAdvice::needs_rename`. -/
def needs_rename (f : FileInfoWithRenameAdvice) : Bool :=
  f.new_filename.isSome

/-- Embedding of `FileInfoWithRenameAdvice::renamed_file_already_exists`.
`fs` is the existence predicate of the working directory: `fs name` is
`Path::exists` of the directory-relative path `name`.  Returns `false`
when `new_filename` is `None`, like the source. -/
def renamed_file_already_exists (fs : List Char → Bool)
    (f : FileInfoWithRenameAdvice) : Bool :=
  match f.new_filename with
  | some n => fs n
  | none => false

/-- Embedding of `find_max_digits` from src/nflz.rs:
`iter().max().unwrap_or(0)` over the number-group values, then the digit
count. -/
def find_max_digits (files : List FileInfo) : Nat :=
  count_digits_without_leading_zeroes
    ((files.map (·.number_group_value)).foldl max 0)

/-- Embedding of `files_to_nflz_file_info_vec` from src/nflz.rs: parse
every path, skip the two per-file parse errors, abort on anything else. -/
def files_to_nflz_file_info_vec : List (List Char) → Except NFLZError (List FileInfo)
  | [] => .ok []
  | p :: rest =>
    match FileInfo.new p with
    | .ok file => (files_to_nflz_file_info_vec rest).map (file :: ·)
    | .error e =>
      match e with
      | .FilenameMustIncludeExactlyOneNumberedGroup _ => files_to_nflz_file_info_vec rest
      | .ValueInNumberedGroupNotANumber _ => files_to_nflz_file_info_vec rest
      | _ => .error e

/-- Insert into a sorted list, after all entries with the same or a
smaller number-group value (this placement makes the sort stable). -/
def insertByValue (f : FileInfoWithRenameAdvice) :
    List FileInfoWithRenameAdvice → List FileInfoWithRenameAdvice
  | [] => [f]
  | g :: rest =>
    if f.file_info.number_group_value < g.file_info.number_group_value then
      f :: g :: rest
    else
      g :: insertByValue f rest

/-- Embedding of `files.sort()` in `NFLZAssistant::new`: Rust's stable
sort under the `Ord` instance of `FileInfoWithRenameAdvice`, which
compares `number_group_value`.  A stable sort is a function of the input
list and the key, so the stable insertion sort used here has the same
result as Rust's merge sort. -/
def sortByValue (files : List FileInfoWithRenameAdvice) :
    List FileInfoWithRenameAdvice :=
  files.foldl (fun acc f => insertByValue f acc) []

/-- Embedding of `NFLZAssistant` from src/nflz.rs (the `path` field is
dropped; paths are directory-relative). -/
structure NFLZAssistant where
  files_with_rename_info : List FileInfoWithRenameAdvice
deriving DecidableEq

/-- The body of `NFLZAssistant::new` after the directory listing: parse,
compute the shared digit width, build every rename advice, sort.  The
result is `.ok none` when building an advice panics. -/
def NFLZAssistant.of_files (names : List (List Char)) :
    Except NFLZError (Option NFLZAssistant) :=
  match files_to_nflz_file_info_vec names with
  | .error e => .error e
  | .ok files =>
    let max_digits := find_max_digits files
    match files.mapM (fun file => FileInfoWithRenameAdvice.new file max_digits) with
    | none => .ok none
    | some advices => .ok (some { files_with_rename_info := sortByValue advices })

/-- Embedding of `NFLZAssistant::new`.  The directory listing is the
external collaborator `read_directory_flat` (not part of the sources
under verification); its outcome is therefore an explicit argument.  A
listing failure is wrapped into `CantReadDirectory`, as in the source. -/
def NFLZAssistant.new (working_dir : List Char)
    (listing : Except IoError (List (List Char))) :
    Except NFLZError (Option NFLZAssistant) :=
  match listing with
  | .error e => .error (.CantReadDirectory working_dir e)
  | .ok names => NFLZAssistant.of_files names

/-- Embedding of `NFLZAssistant::files_to_rename`. -/
def files_to_rename (a : NFLZAssistant) : List FileInfoWithRenameAdvice :=
  a.files_with_rename_info.filter needs_rename

/-- Embedding of `check_no_destination_file_already_exists` from
src/nflz.rs.  On failure the error carries, for every conflicting entry,
`info.file_info().path()` — the path of the entry's original file (here
directory-relative, hence its original filename). -/
def check_no_destination_file_already_exists (fs : List Char → Bool)
    (files : List FileInfoWithRenameAdvice) : Except NFLZError Unit :=
  let conflicting := files.filter (renamed_file_already_exists fs)
  if conflicting.isEmpty then
    .ok ()
  else
    .error (.ConflictingFiles (conflicting.map (·.file_info.original_filename)))

/-- Character-wise lower-casing, embedding `str::to_lowercase` on the
ASCII strings the suffix comparison is about. -/
def lowercase (s : List Char) : List Char :=
  s.map Char.toLower

/-- Embedding of `check_suffixes_and_prefixes_are_unambiguous` from
src/nflz.rs.  The `HashSet`s of prefixes and suffixes are `Finset`s; the
source's "the only two suffixes differ only in case" test (comparing the
two elements of the set after `to_lowercase`) is expressed as: the set
has two elements and its image under `lowercase` has one. -/
def check_suffixes_and_prefixes_are_unambiguous
    (pf_list : List FileInfoWithRenameAdvice) : Except NFLZError Unit :=
  let prefixSet := (pf_list.map (fun pf => prefix_of pf.file_info)).toFinset
  let suffixSet := (pf_list.map (fun pf => suffix_of pf.file_info)).toFinset
  if 1 < prefixSet.card then
    .error (.AmbiguousPrefixes prefixSet)
  else if 1 < suffixSet.card ∧
      ¬(suffixSet.card = 2 ∧ (suffixSet.image lowercase).card = 1) then
    .error (.AmbiguousSuffixes suffixSet)
  else
    .ok ()

/-- Embedding of `NFLZAssistant::check_can_rename_all`: destination
check first, then the prefix/suffix check. -/
def check_can_rename_all (fs : List Char → Bool) (a : NFLZAssistant) :
    Except NFLZError Unit :=
  match check_no_destination_file_already_exists fs a.files_with_rename_info with
  | .error e => .error e
  | .ok () => check_suffixes_and_prefixes_are_unambiguous a.files_with_rename_info

/-- The old-name/new-name pair a rename advice asks the filesystem to
perform.  The `getD []` mirrors the
`expect("Must be present at this point!")` in `rename_all`, which is
unreachable for entries of `files_to_rename`. -/
def renamePair (f : FileInfoWithRenameAdvice) : List Char × List Char :=
  (f.file_info.original_filename, f.new_filename.getD [])

/-- The rename loop of `NFLZAssistant::rename_all`.  `rn old new` is the
outcome of `std::fs::rename` (`none` = success).  Returns the renames
actually performed, in order, together with the outcome: on the first
failure the loop stops with `RenameFailed` carrying the old name, the
intended new name and the underlying I/O error. -/
def renameAllGo (rn : List Char → List Char → Option IoError) :
    List FileInfoWithRenameAdvice →
      List (List Char × List Char) × Except NFLZError Unit
  | [] => ([], .ok ())
  | f :: rest =>
    let p := renamePair f
    match rn p.1 p.2 with
    | some io_err => ([], .error (.RenameFailed p.1 p.2 io_err))
    | none =>
      let r := renameAllGo rn rest
      (p :: r.1, r.2)

/-- Embedding of `NFLZAssistant::rename_all`: validate first, then
rename every entry of `files_to_rename` in order, stopping at the first
failure; on success return the complete entry list.  The first component
is the list of renames actually applied to the filesystem. -/
def rename_all (rn : List Char → List Char → Option IoError)
    (fs : List Char → Bool) (a : NFLZAssistant) :
    List (List Char × List Char) × Except NFLZError (List FileInfoWithRenameAdvice) :=
  match check_can_rename_all fs a with
  | .error e => ([], .error e)
  | .ok () =>
    let r := renameAllGo rn (files_to_rename a)
    (r.1, r.2.map (fun _ => a.files_with_rename_info))

/-- The filenames of the directory after a successfully executed plan:
each entry keeps its original name unless the plan renamed it. -/
def renamedNames (a : NFLZAssistant) : List (List Char) :=
  a.files_with_rename_info.map
    (fun f => f.new_filename.getD f.file_info.original_filename)

/-- Round-to-nearest, ties-to-even conversion of an unsigned integer to
the nearest `f64`-representable integer, the exact semantics of Rust's
`(number + 1) as f64` in `count_digits_without_leading_zeroes`
(src/math.rs) for inputs below `2 ^ 64`.  Integers below `2 ^ 53` are
exactly representable; above, the value is rounded to the nearest
multiple of the unit in the last place `2 ^ (⌊log2 n⌋ - 52)`. -/
def roundToF64 (n : Nat) : Nat :=
  if n < 2 ^ 53 then
    n
  else
    let ulp := 2 ^ (Nat.log 2 n - 52)
    let q := n / ulp
    let r := n % ulp
    if 2 * r < ulp then q * ulp
    else if ulp < 2 * r then (q + 1) * ulp
    else if q % 2 = 0 then q * ulp else (q + 1) * ulp

/-! ### Helper lemmas -/

/-- A left fold with `max` dominates its initial accumulator. -/
theorem foldl_max_init_le : ∀ (l : List Nat) (b : Nat), b ≤ l.foldl max b := by
  intro l
  induction l with
  | nil => intro b; simp
  | cons x xs ih =>
    intro b
    calc b ≤ max b x := Nat.le_max_left b x
    _ ≤ (xs.foldl max (max b x)) := ih (max b x)

/-- Every member of a list is dominated by the left fold with `max`. -/
theorem mem_le_foldl_max : ∀ (l : List Nat) (a : Nat), a ∈ l → ∀ b, a ≤ l.foldl max b := by
  intro l
  induction l with
  | nil => intro a ha; cases ha
  | cons x xs ih =>
    intro a ha b
    rcases List.mem_cons.mp ha with h | h
    · subst h
      calc a ≤ max b a := Nat.le_max_right b a
      _ ≤ xs.foldl max (max b a) := foldl_max_init_le xs (max b a)
    · exact ih a h (max b x)

/-- A left fold with `max` over a list of zeroes keeps the accumulator. -/
theorem foldl_max_zeroes : ∀ (l : List Nat), (∀ x ∈ l, x = 0) → ∀ b, l.foldl max b = b := by
  intro l
  induction l with
  | nil => intro _ b; rfl
  | cons x xs ih =>
    intro h b
    have hx : x = 0 := h x (List.mem_cons_self x xs)
    have hxs : ∀ y ∈ xs, y = 0 := fun y hy => h y (List.mem_cons_of_mem x hy)
    simp only [List.foldl_cons, hx, Nat.max_zero]
    exact ih hxs b

/-- `FileInfo::new` only ever fails with one of the two per-file parse
errors. -/
theorem FileInfo.new_error_kinds (p : List Char) (e : NFLZError)
    (h : FileInfo.new p = .error e) :
    (∃ f, e = .FilenameMustIncludeExactlyOneNumberedGroup f) ∨
      (∃ v, e = .ValueInNumberedGroupNotANumber v) := by
  unfold FileInfo.new at h
  unfold get_number_group_indices_from_actual_filename at h
  rcases hm : regexFindIter p with _ | ⟨⟨a, b⟩, tl⟩
  · rw [hm] at h
    simp only [] at h
    exact Or.inl ⟨p, by cases h; rfl⟩
  · rcases tl with _ | ⟨y, tl'⟩
    · rw [hm] at h
      simp only [] at h
      rcases hp : parseU64 (sliceChars p (a + 1) (b - 1)) with _ | v
      · rw [hp] at h
        exact Or.inr ⟨sliceChars p (a + 1) (b - 1), by cases h; rfl⟩
      · rw [hp] at h
        cases h
    · rw [hm] at h
      simp only [] at h
      exact Or.inl ⟨p, by cases h; rfl⟩

/-! ### C1 -/

/-- The candidate name the plan builder synthesizes for a file under the
shared width `max_digits`: prefix, leading zeroes, the value printed
without leading zeroes, suffix. -/
def synthName (fi : FileInfo) (max_digits : Nat) : List Char :=
  prefix_of fi ++
    (List.replicate (max_digits - count_digits_without_leading_zeroes fi.number_group_value) '0' ++
      Nat.toDigits 10 fi.number_group_value) ++
    suffix_of fi

/-- C1 counterexample: the claim is false as stated.  For the over-padded
file `img (0012).jpg` under shared width 2 the claim demands
`new_filename = Some("img (12).jpg")` (the synthesized name, which
differs from the original), but the builder compares digit counts, finds
`digits_to_add_count == 0` and returns `new_filename = None`. -/
theorem c1_counterexample :
    (FileInfo.new "img (0012).jpg".toList).toOption.bind
        (fun fi => FileInfoWithRenameAdvice.new fi 2) =
      some { file_info := { original_filename := "img (0012).jpg".toList,
                            number_group_indices := (5, 9),
                            number_group_str := "0012".toList,
                            number_group_value := 12 },
             new_filename := none } ∧
    "img (".toList ++ Nat.toDigits 10 12 ++ ").jpg".toList ≠ "img (0012).jpg".toList := by
  decide

/-- C1 (amended): under the no-panic preconditions (positive shared
width, digit count within the width) the builder returns
`new_filename = None` exactly when the file's digit count already equals
the shared width; when zeroes are to be added it synthesizes
prefix + zeroes + value + suffix, panics (`assert_ne!`) if that name
equals the original filename, and otherwise returns it as
`Some`; consequently whenever `new_filename` is `Some` it differs from
`original_filename`. -/
theorem c1_amended (fi : FileInfo) (max_digits : Nat)
    (hpos : 0 < max_digits)
    (hle : count_digits_without_leading_zeroes fi.number_group_value ≤ max_digits) :
    (count_digits_without_leading_zeroes fi.number_group_value = max_digits →
      FileInfoWithRenameAdvice.new fi max_digits =
        some { file_info := fi, new_filename := none }) ∧
    (count_digits_without_leading_zeroes fi.number_group_value < max_digits →
      (synthName fi max_digits = fi.original_filename →
        FileInfoWithRenameAdvice.new fi max_digits = none) ∧
      (synthName fi max_digits ≠ fi.original_filename →
        FileInfoWithRenameAdvice.new fi max_digits =
          some { file_info := fi, new_filename := some (synthName fi max_digits) })) ∧
    (∀ adv s, FileInfoWithRenameAdvice.new fi max_digits = some adv →
      adv.new_filename = some s →
      s = synthName fi max_digits ∧ s ≠ fi.original_filename) := by
  have hbody :
      FileInfoWithRenameAdvice.new fi max_digits =
        if max_digits - count_digits_without_leading_zeroes fi.number_group_value = 0 then
          some { file_info := fi, new_filename := none }
        else if fi.original_filename = synthName fi max_digits then none
        else some { file_info := fi, new_filename := some (synthName fi max_digits) } := by
    unfold FileInfoWithRenameAdvice.new synthName
    rw [if_neg (by omega), if_neg (by omega)]
  refine ⟨?_, ?_, ?_⟩
  · intro heq
    rw [hbody, if_pos (by omega)]
  · intro hlt
    constructor
    · intro hsame
      rw [hbody, if_neg (by omega), if_pos hsame.symm]
    · intro hdiff
      rw [hbody, if_neg (by omega), if_neg (fun hx => hdiff hx.symm)]
  · intro adv s hadv hs
    rw [hbody] at hadv
    by_cases h0 : max_digits - count_digits_without_leading_zeroes fi.number_group_value = 0
    · rw [if_pos h0] at hadv
      cases hadv
      cases hs
    · rw [if_neg h0] at hadv
      by_cases hsame : fi.original_filename = synthName fi max_digits
      · rw [if_pos hsame] at hadv
        cases hadv
      · rw [if_neg hsame] at hadv
        cases hadv
        cases hs
        exact ⟨rfl, fun hx => hsame hx.symm⟩

/-- C1 witness: the amended characterization applied to `paris (1).jpg`
under shared width 2: the file is renamed to the synthesized name. -/
theorem c1_amended_witness :
    FileInfoWithRenameAdvice.new
        { original_filename := "paris (1).jpg".toList,
          number_group_indices := (7, 8),
          number_group_str := "1".toList,
          number_group_value := 1 } 2 =
      some { file_info := { original_filename := "paris (1).jpg".toList,
                            number_group_indices := (7, 8),
                            number_group_str := "1".toList,
                            number_group_value := 1 },
             new_filename := some (synthName
               { original_filename := "paris (1).jpg".toList,
                 number_group_indices := (7, 8),
                 number_group_str := "1".toList,
                 number_group_value := 1 } 2) } :=
  ((c1_amended _ 2 (by decide) (by decide)).2.1 (by decide)).2 (by decide)

/-! ### C2 -/

/-- C2: refuted by the code (code bug): planning is not idempotent.  For a
directory of `paris (1).jpg` and `paris (123).jpg` the first run renames
`paris (1).jpg` to `paris (001).jpg` (second file unchanged).  Running
the builder again on the renamed outputs, `paris (001).jpg` parses with
value 1, still needs two leading zeroes under shared width 3, and the
resynthesized name equals the current filename — so
`assert_ne!(original_filename, new_filename)` fires and the second run
panics (`.ok none` in this embedding) instead of producing an all-`None`
plan, contradicting the source comment "should never happen" at that
assertion. -/
theorem c2_second_run_panics :
    (NFLZAssistant.of_files
        ["paris (1).jpg".toList, "paris (123).jpg".toList]).map
        (Option.map renamedNames) =
      .ok (some ["paris (001).jpg".toList, "paris (123).jpg".toList]) ∧
    NFLZAssistant.of_files
        ["paris (001).jpg".toList, "paris (123).jpg".toList] = .ok none := by
  decide

/-! ### C3 -/

/-- The destination-collision test as a proposition: the entry plans a
new name that already exists in the directory. -/
theorem renamed_file_already_exists_iff (fs : List Char → Bool)
    (f : FileInfoWithRenameAdvice) :
    renamed_file_already_exists fs f = true ↔
      ∃ n, f.new_filename = some n ∧ fs n = true := by
  rcases h : f.new_filename with _ | n <;> simp [renamed_file_already_exists, h]

/-- C3 counterexample: the claim is false as stated.  With
`paris (1).jpg` planned to become `paris (001).jpg` and a pre-existing
`paris (001).jpg` in the directory, validation does fail with
`ConflictingFiles`, but the error carries the conflicting entry's
original path `paris (1).jpg` — not the planned new path
`paris (001).jpg` the claim promises. -/
theorem c3_counterexample :
    check_no_destination_file_already_exists
        (fun n => n == "paris (001).jpg".toList)
        [{ file_info := { original_filename := "paris (1).jpg".toList,
                          number_group_indices := (7, 8),
                          number_group_str := "1".toList,
                          number_group_value := 1 },
           new_filename := some "paris (001).jpg".toList }] =
      .error (.ConflictingFiles ["paris (1).jpg".toList]) ∧
    ("paris (1).jpg".toList : List Char) ≠ "paris (001).jpg".toList := by
  decide

/-- C3 (amended): validation fails iff some entry with
`new_filename = Some(name)` has an existing filesystem entry at
`directory/name`; entries with `new_filename = None` never contribute;
on failure the error is `ConflictingFiles` carrying the original paths
of all conflicting entries (not just the first one found). -/
theorem c3_amended (fs : List Char → Bool) (files : List FileInfoWithRenameAdvice) :
    (check_no_destination_file_already_exists fs files = .ok () ↔
      ∀ f ∈ files, ¬∃ n, f.new_filename = some n ∧ fs n = true) ∧
    (check_no_destination_file_already_exists fs files ≠ .ok () →
      check_no_destination_file_already_exists fs files =
        .error (.ConflictingFiles
          ((files.filter (renamed_file_already_exists fs)).map
            (·.file_info.original_filename)))) ∧
    (∀ f, f.new_filename = none → renamed_file_already_exists fs f = false) := by
  refine ⟨?_, ?_, ?_⟩
  · simp only [check_no_destination_file_already_exists]
    split_ifs with h
    · simp only [List.isEmpty_iff] at h
      have hall := List.filter_eq_nil_iff.mp h
      constructor
      · intro _ f hf
        rw [← renamed_file_already_exists_iff fs f]
        exact fun hx => hall f hf (by simp [hx])
      · intro _
        rfl
    · simp only [List.isEmpty_iff] at h
      constructor
      · intro hcontr
        cases hcontr
      · intro hnone
        exfalso
        rcases List.exists_mem_of_ne_nil _ h with ⟨f, hf⟩
        rcases List.mem_filter.mp hf with ⟨hmem, hpred⟩
        exact hnone f hmem ((renamed_file_already_exists_iff fs f).mp hpred)
  · simp only [check_no_destination_file_already_exists]
    split_ifs with h
    · intro hcontr
      exact absurd rfl hcontr
    · intro _
      rfl
  · intro f h
    simp [renamed_file_already_exists, h]

/-- C3 witness: the amended characterization applied to a concrete
conflict-free configuration. -/
theorem c3_amended_witness :
    check_no_destination_file_already_exists (fun _ => false)
        [{ file_info := { original_filename := "img (7).png".toList,
                          number_group_indices := (5, 6),
                          number_group_str := "7".toList,
                          number_group_value := 7 },
           new_filename := some "img (07).png".toList }] = .ok () :=
  (c3_amended (fun _ => false) _).1.mpr (by decide)

/-! ### C4 -/

/-- C4: confirmed.  Over all entries (including already-correctly-named
ones): more than one distinct prefix fails with `AmbiguousPrefixes`
carrying the set, with no case-insensitive exception; more than one
distinct suffix fails with `AmbiguousSuffixes` carrying the set unless
there are exactly two distinct suffixes that agree after lower-casing;
three or more distinct suffixes always fail.  (The prefix check runs
first, so a simultaneous suffix ambiguity still reports
`AmbiguousPrefixes`.) -/
theorem c4_ambiguity_check (pf_list : List FileInfoWithRenameAdvice) :
    (check_suffixes_and_prefixes_are_unambiguous pf_list = .ok () ↔
      ((pf_list.map (fun pf => prefix_of pf.file_info)).toFinset.card ≤ 1 ∧
        ((pf_list.map (fun pf => suffix_of pf.file_info)).toFinset.card ≤ 1 ∨
          ((pf_list.map (fun pf => suffix_of pf.file_info)).toFinset.card = 2 ∧
            ((pf_list.map (fun pf => suffix_of pf.file_info)).toFinset.image
              lowercase).card = 1)))) ∧
    (1 < (pf_list.map (fun pf => prefix_of pf.file_info)).toFinset.card →
      check_suffixes_and_prefixes_are_unambiguous pf_list =
        .error (.AmbiguousPrefixes
          (pf_list.map (fun pf => prefix_of pf.file_info)).toFinset)) ∧
    ((pf_list.map (fun pf => prefix_of pf.file_info)).toFinset.card ≤ 1 →
      1 < (pf_list.map (fun pf => suffix_of pf.file_info)).toFinset.card →
      ¬((pf_list.map (fun pf => suffix_of pf.file_info)).toFinset.card = 2 ∧
        ((pf_list.map (fun pf => suffix_of pf.file_info)).toFinset.image
          lowercase).card = 1) →
      check_suffixes_and_prefixes_are_unambiguous pf_list =
        .error (.AmbiguousSuffixes
          (pf_list.map (fun pf => suffix_of pf.file_info)).toFinset)) := by
  simp only [check_suffixes_and_prefixes_are_unambiguous]
  refine ⟨?_, ?_, ?_⟩
  · split_ifs with h1 h2
    · constructor
      · intro hcontr
        cases hcontr
      · intro ⟨ha, _⟩
        omega
    · constructor
      · intro hcontr
        cases hcontr
      · intro ⟨_, hb⟩
        rcases h2 with ⟨h2a, h2b⟩
        rcases hb with hb | hb
        · omega
        · exact h2b hb
    · constructor
      · intro _
        refine ⟨by omega, ?_⟩
        by_cases hs : 1 < (pf_list.map (fun pf => suffix_of pf.file_info)).toFinset.card
        · right
          by_contra hx
          exact h2 ⟨hs, hx⟩
        · left
          omega
      · intro _
        rfl
  · intro h
    rw [if_pos h]
  · intro h1 h2 h3
    rw [if_neg (by omega), if_pos ⟨h2, h3⟩]

/-- C4 witness: `img (1).jpg` together with `IMG (2).jpg` fails with
`AmbiguousPrefixes` — prefix case differences are never tolerated. -/
theorem c4_ambiguity_check_witness :
    check_suffixes_and_prefixes_are_unambiguous
        [{ file_info := { original_filename := "img (1).jpg".toList,
                          number_group_indices := (5, 6),
                          number_group_str := "1".toList,
                          number_group_value := 1 },
           new_filename := none },
         { file_info := { original_filename := "IMG (2).jpg".toList,
                          number_group_indices := (5, 6),
                          number_group_str := "2".toList,
                          number_group_value := 2 },
           new_filename := none }] =
      .error (.AmbiguousPrefixes
        ([ "img (".toList, "IMG (".toList] : List (List Char)).toFinset) := by
  have h := (c4_ambiguity_check
    [{ file_info := { original_filename := "img (1).jpg".toList,
                      number_group_indices := (5, 6),
                      number_group_str := "1".toList,
                      number_group_value := 1 },
       new_filename := none },
     { file_info := { original_filename := "IMG (2).jpg".toList,
                      number_group_indices := (5, 6),
                      number_group_str := "2".toList,
                      number_group_value := 2 },
       new_filename := none }]).2.1 (by decide)
  exact h.trans (by decide)

/-! ### C5 -/

/-- The rename loop succeeds and performs exactly the planned renames, in
order, when the rename collaborator succeeds on each of them. -/
theorem renameAllGo_ok (rn : List Char → List Char → Option IoError) :
    ∀ (l : List FileInfoWithRenameAdvice),
      (∀ f ∈ l, rn (renamePair f).1 (renamePair f).2 = none) →
      renameAllGo rn l = (l.map renamePair, .ok ()) := by
  intro l
  induction l with
  | nil => intro _; rfl
  | cons f rest ih =>
    intro h
    have hf : rn (renamePair f).1 (renamePair f).2 = none :=
      h f (List.mem_cons_self f rest)
    have hrest := ih fun g hg => h g (List.mem_cons_of_mem f hg)
    simp only [renameAllGo, hf, hrest, List.map_cons]

/-- The rename loop stops at the first failing rename: everything before
it is performed, the failing entry raises `RenameFailed` with its old
name, its intended new name and the I/O error, and nothing after it is
attempted. -/
theorem renameAllGo_fail (rn : List Char → List Char → Option IoError)
    (f : FileInfoWithRenameAdvice) (io_err : IoError)
    (hf : rn (renamePair f).1 (renamePair f).2 = some io_err) :
    ∀ (done rest : List FileInfoWithRenameAdvice),
      (∀ g ∈ done, rn (renamePair g).1 (renamePair g).2 = none) →
      renameAllGo rn (done ++ f :: rest) =
        (done.map renamePair,
          .error (.RenameFailed (renamePair f).1 (renamePair f).2 io_err)) := by
  intro done
  induction done with
  | nil =>
    intro rest _
    simp only [List.nil_append, renameAllGo, hf, List.map_nil]
  | cons g gs ih =>
    intro rest h
    have hg : rn (renamePair g).1 (renamePair g).2 = none :=
      h g (List.mem_cons_self g gs)
    have htl := ih rest fun x hx => h x (List.mem_cons_of_mem g hx)
    simp only [List.cons_append, renameAllGo, hg, List.append_eq, htl, List.map_cons]

/-- C5: confirmed.  `rename_all` validates first and performs no rename
at all when validation fails; otherwise it renames exactly the
`new_filename = Some` entries, in the plan's order; after the first
failing rename nothing further is attempted and the error is
`RenameFailed` with the old name, the intended new name and the
underlying I/O error, the renames already applied staying in place (the
first component of the result is the list of renames actually
performed); on full success it returns the complete entry list,
unchanged entries included. -/
theorem c5_executor (rn : List Char → List Char → Option IoError)
    (fs : List Char → Bool) (a : NFLZAssistant) :
    (∀ e, check_can_rename_all fs a = .error e →
      rename_all rn fs a = ([], .error e)) ∧
    (check_can_rename_all fs a = .ok () →
      ((∀ f ∈ files_to_rename a, rn (renamePair f).1 (renamePair f).2 = none) →
        rename_all rn fs a =
          ((files_to_rename a).map renamePair, .ok a.files_with_rename_info)) ∧
      (∀ (done : List FileInfoWithRenameAdvice) (f : FileInfoWithRenameAdvice)
          (rest : List FileInfoWithRenameAdvice) (io_err : IoError),
        files_to_rename a = done ++ f :: rest →
        (∀ g ∈ done, rn (renamePair g).1 (renamePair g).2 = none) →
        rn (renamePair f).1 (renamePair f).2 = some io_err →
        rename_all rn fs a =
          (done.map renamePair,
            .error (.RenameFailed (renamePair f).1 (renamePair f).2 io_err)))) := by
  constructor
  · intro e he
    simp only [rename_all, he]
  · intro hok
    constructor
    · intro hall
      simp only [rename_all, hok, renameAllGo_ok rn _ hall, Except.map]
    · intro done f rest io_err hsplit hdone hf
      simp only [rename_all, hok, hsplit, renameAllGo_fail rn f io_err hf done rest hdone,
        Except.map]

/-- C5 witness: a concrete one-entry plan executed against an
always-succeeding rename collaborator performs exactly that rename and
returns the full entry list. -/
theorem c5_executor_witness :
    rename_all (fun _ _ => none) (fun _ => false)
        { files_with_rename_info :=
            [{ file_info := { original_filename := "paris (1).jpg".toList,
                              number_group_indices := (7, 8),
                              number_group_str := "1".toList,
                              number_group_value := 1 },
               new_filename := some "paris (001).jpg".toList }] } =
      ([("paris (1).jpg".toList, "paris (001).jpg".toList)],
        .ok [{ file_info := { original_filename := "paris (1).jpg".toList,
                              number_group_indices := (7, 8),
                              number_group_str := "1".toList,
                              number_group_value := 1 },
               new_filename := some "paris (001).jpg".toList }]) := by
  have h := ((c5_executor (fun _ _ => none) (fun _ => false)
    { files_with_rename_info :=
        [{ file_info := { original_filename := "paris (1).jpg".toList,
                          number_group_indices := (7, 8),
                          number_group_str := "1".toList,
                          number_group_value := 1 },
           new_filename := some "paris (001).jpg".toList }] }).2 (by decide)).1
    (by intro f _; rfl)
  exact h.trans (by decide)

/-! ### C6 -/

/-- `10^16` sits in the binade `[2^53, 2^54)`. -/
theorem log2_ten_pow_16 : Nat.log 2 (10 ^ 16) = 53 :=
  Nat.log_eq_of_pow_le_of_lt_pow (by norm_num) (by norm_num)

/-- So does `10^16 + 1`. -/
theorem log2_ten_pow_16_succ : Nat.log 2 (10 ^ 16 + 1) = 53 :=
  Nat.log_eq_of_pow_le_of_lt_pow (by norm_num) (by norm_num)

/-- C6: refuted by the code (code bug).  The claim demands
`digit_count(x) = ceil(log10(x + 1))` exactly "over the whole unsigned
input range", and the code's own documentation promises the amount of
digits of the number.  But src/math.rs computes the formula by converting
`number + 1` to `f64`, and that conversion is not injective on `u64`:
`10^16 + 1` rounds to the same `f64` as `10^16` (ties-to-even at one ulp
= 2), so the implementation returns the same digit count for
`10^16 - 1` (16 digits) and `10^16` (17 digits) no matter how `log10` is
computed, and in practice returns 16 for `10^16`.  This theorem exhibits
the collision of the conversion together with the two distinct exact
digit counts the claim requires at those inputs. -/
theorem c6_digit_count_f64_collision :
    roundToF64 (10 ^ 16 + 1) = roundToF64 ((10 ^ 16 - 1) + 1) ∧
    count_digits_without_leading_zeroes (10 ^ 16) = 17 ∧
    count_digits_without_leading_zeroes (10 ^ 16 - 1) = 16 := by
  refine ⟨?_, ?_, ?_⟩
  · have h1 : roundToF64 (10 ^ 16 + 1) = 10 ^ 16 := by
      unfold roundToF64
      rw [if_neg (by norm_num)]
      rw [log2_ten_pow_16_succ]
      norm_num
    have h2 : roundToF64 ((10 ^ 16 - 1) + 1) = 10 ^ 16 := by
      have he : (10 ^ 16 - 1) + 1 = 10 ^ 16 := by norm_num
      rw [he]
      unfold roundToF64
      rw [if_neg (by norm_num)]
      rw [log2_ten_pow_16]
      norm_num
    rw [h1, h2]
  · rw [count_digits_eq_clog]
    have hle : Nat.clog 10 (10 ^ 16 + 1) ≤ 17 :=
      (Nat.le_pow_iff_clog_le (by norm_num)).mp (by norm_num)
    have hlt : 16 < Nat.clog 10 (10 ^ 16 + 1) :=
      (Nat.pow_lt_iff_lt_clog (by norm_num)).mp (by norm_num)
    omega
  · rw [count_digits_eq_clog]
    have he : (10 ^ 16 - 1) + 1 = 10 ^ 16 := by norm_num
    rw [he]
    exact Nat.clog_pow 10 16 (by norm_num)

/-! ### C7 -/

/-- C7: confirmed.  `leading_zero_count` is `max_digits - digits` in the
plan builder; whenever `max_digits` is `find_max_digits` of a set of
parsed files containing the file at hand, the digit count of the file's
value is bounded by it, so the `u64` subtraction cannot underflow and
the underflow panic branch of `FileInfoWithRenameAdvice::new` is
unreachable. -/
theorem c7_no_underflow (files : List FileInfo) (fi : FileInfo) (h : fi ∈ files) :
    count_digits_without_leading_zeroes fi.number_group_value ≤ find_max_digits files := by
  unfold find_max_digits
  exact count_digits_mono
    (mem_le_foldl_max _ _ (List.mem_map_of_mem (·.number_group_value) h) 0)

/-- C7 witness: the bound evaluated on a concrete two-file set. -/
theorem c7_no_underflow_witness :
    count_digits_without_leading_zeroes
        ({ original_filename := "paris (1).jpg".toList,
           number_group_indices := (7, 8),
           number_group_str := "1".toList,
           number_group_value := 1 } : FileInfo).number_group_value ≤
      find_max_digits
        [{ original_filename := "paris (1).jpg".toList,
           number_group_indices := (7, 8),
           number_group_str := "1".toList,
           number_group_value := 1 },
         { original_filename := "paris (123).jpg".toList,
           number_group_indices := (7, 10),
           number_group_str := "123".toList,
           number_group_value := 123 }] :=
  c7_no_underflow _ _ (by decide)

/-! ### C8 -/

/-- Dropping within the left part of an append. -/
theorem drop_append_le (l₁ l₂ : List Char) (n : Nat) (h : n ≤ l₁.length) :
    (l₁ ++ l₂).drop n = l₁.drop n ++ l₂ := by
  rw [List.drop_append_eq_append_drop, Nat.sub_eq_zero_of_le h, List.drop_zero]

/-- Invariant of the scanner state relative to the input consumed so
far: an open partial match `some (s, k)` means the consumed input ends
with `'('` at index `s` followed by exactly `k` digits. -/
def StateOk (pre : List Char) : Option (Nat × Nat) → Prop
  | none => True
  | some (s, k) =>
    ∃ ds : List Char, ds.length = k ∧ ds.all Char.isDigit = true ∧ pre.drop s = '(' :: ds

/-- Soundness of the regex scan: every span it emits delimits a
parenthesized non-empty digit run of the full input. -/
theorem findIterAux_sound (l : List Char) :
    ∀ (pre : List Char) (st : Option (Nat × Nat)), StateOk pre st →
      ∀ a b, (a, b) ∈ findIterAux l pre.length st →
        ∃ ds rest, 0 < ds.length ∧ ds.all Char.isDigit = true ∧
          (pre ++ l).drop a = '(' :: (ds ++ ')' :: rest) ∧
          b = a + ds.length + 2 := by
  induction l with
  | nil =>
    intro pre st _ a b hmem
    cases st with
    | none => cases hmem
    | some sk => cases sk with | mk s k => cases hmem
  | cons c tl ih =>
    intro pre st hst a b hmem
    have hlen : pre.length + 1 = (pre ++ [c]).length := by simp
    have happ : (pre ++ [c]) ++ tl = pre ++ c :: tl := by simp
    cases st with
    | none =>
      simp only [findIterAux] at hmem
      by_cases hc : c = '('
      · rw [if_pos hc, hlen] at hmem
        have hst1 : StateOk (pre ++ [c]) (some (pre.length, 0)) := by
          refine ⟨[], rfl, rfl, ?_⟩
          rw [show pre.length = (pre : List Char).length from rfl, List.drop_left, hc]
        obtain ⟨ds, rest, h1, h2, h3, h4⟩ := ih (pre ++ [c]) _ hst1 a b hmem
        rw [happ] at h3
        exact ⟨ds, rest, h1, h2, h3, h4⟩
      · rw [if_neg hc, hlen] at hmem
        obtain ⟨ds, rest, h1, h2, h3, h4⟩ := ih (pre ++ [c]) none trivial a b hmem
        rw [happ] at h3
        exact ⟨ds, rest, h1, h2, h3, h4⟩
    | some sk =>
      cases sk with
      | mk s k =>
        obtain ⟨ds0, hlen0, hdig0, hdrop0⟩ := hst
        have hslen : pre.length = s + k + 1 := by
          have := congrArg List.length hdrop0
          simp only [List.length_drop, List.length_cons, hlen0] at this
          omega
        have hsle : s ≤ pre.length := by omega
        simp only [findIterAux] at hmem
        by_cases hd : c.isDigit
        · rw [if_pos hd, hlen] at hmem
          have hst1 : StateOk (pre ++ [c]) (some (s, k + 1)) := by
            refine ⟨ds0 ++ [c], by simp [hlen0], ?_, ?_⟩
            · simp only [List.all_append, hdig0, Bool.true_and, List.all_cons,
                List.all_nil, Bool.and_true, hd]
            · rw [drop_append_le pre [c] s hsle, hdrop0, List.cons_append]
          obtain ⟨ds, rest, h1, h2, h3, h4⟩ := ih (pre ++ [c]) _ hst1 a b hmem
          rw [happ] at h3
          exact ⟨ds, rest, h1, h2, h3, h4⟩
        · rw [if_neg hd] at hmem
          by_cases hcp : c = ')' ∧ 0 < k
          · rw [if_pos hcp] at hmem
            obtain ⟨hcl, hck⟩ := hcp
            rcases List.mem_cons.mp hmem with heq | hmem'
            · rw [Prod.mk.injEq] at heq
              obtain ⟨rfl, rfl⟩ := heq
              refine ⟨ds0, tl, by omega, hdig0, ?_, by omega⟩
              rw [drop_append_le pre (c :: tl) a (by omega), hdrop0, hcl,
                List.cons_append]
            · rw [hlen] at hmem'
              obtain ⟨ds, rest, h1, h2, h3, h4⟩ := ih (pre ++ [c]) none trivial a b hmem'
              rw [happ] at h3
              exact ⟨ds, rest, h1, h2, h3, h4⟩
          · rw [if_neg hcp] at hmem
            by_cases hc : c = '('
            · rw [if_pos hc, hlen] at hmem
              have hst1 : StateOk (pre ++ [c]) (some (pre.length, 0)) := by
                refine ⟨[], rfl, rfl, ?_⟩
                rw [show pre.length = (pre : List Char).length from rfl, List.drop_left, hc]
              obtain ⟨ds, rest, h1, h2, h3, h4⟩ := ih (pre ++ [c]) _ hst1 a b hmem
              rw [happ] at h3
              exact ⟨ds, rest, h1, h2, h3, h4⟩
            · rw [if_neg hc, hlen] at hmem
              obtain ⟨ds, rest, h1, h2, h3, h4⟩ := ih (pre ++ [c]) none trivial a b hmem
              rw [happ] at h3
              exact ⟨ds, rest, h1, h2, h3, h4⟩

/-- C8 counterexample: the claim is false as stated.  For
`img (100).jpg` the parse succeeds with derived prefix `"img ("`
(opening parenthesis included) and suffix `").jpg"` (closing parenthesis
included), so the claimed identity
`prefix + "(" + digits + ")" + suffix == filename` duplicates both
parentheses and does not hold. -/
theorem c8_counterexample :
    FileInfo.new "img (100).jpg".toList =
      .ok { original_filename := "img (100).jpg".toList,
            number_group_indices := (5, 8),
            number_group_str := "100".toList,
            number_group_value := 100 } ∧
    prefix_of { original_filename := "img (100).jpg".toList,
                number_group_indices := (5, 8),
                number_group_str := "100".toList,
                number_group_value := 100 } = "img (".toList ∧
    suffix_of { original_filename := "img (100).jpg".toList,
                number_group_indices := (5, 8),
                number_group_str := "100".toList,
                number_group_value := 100 } = ").jpg".toList ∧
    "img (".toList ++ "(".toList ++ "100".toList ++ ")".toList ++ ").jpg".toList ≠
      "img (100).jpg".toList := by
  decide

/-- C8 (amended): for every filename containing exactly one
parenthesized ASCII-digit group, the span extraction succeeds and, with
prefix = `filename[0 .. span.start]` (which ends with the opening
parenthesis) and suffix = `filename[span.end .. end]` (which starts with
the closing parenthesis), the identity
`prefix + digits + suffix == filename` holds; the full parse to a
`FileInfo` additionally requires the digit value to fit in `u64`. -/
theorem c8_amended (f : List Char) (h : (regexFindIter f).length = 1) :
    ∃ a b ds rest,
      regexFindIter f = [(a, b)] ∧
      get_number_group_indices_from_actual_filename f = .ok (a + 1, b - 1) ∧
      f.drop a = '(' :: (ds ++ ')' :: rest) ∧
      0 < ds.length ∧ ds.all Char.isDigit = true ∧ b = a + ds.length + 2 ∧
      sliceChars f (a + 1) (b - 1) = ds ∧
      f.take (a + 1) ++ (ds ++ f.drop (b - 1)) = f ∧
      (f.take (a + 1)).getLast? = some '(' ∧
      f.drop (b - 1) = ')' :: rest ∧
      (digitsToNat ds < 2 ^ 64 →
        ∃ fi, FileInfo.new f = .ok fi ∧
          fi.original_filename = f ∧
          fi.number_group_indices = (a + 1, b - 1) ∧
          fi.number_group_str = ds ∧
          fi.number_group_value = digitsToNat ds ∧
          prefix_of fi ++ (fi.number_group_str ++ suffix_of fi) = f) := by
  rcases hm : regexFindIter f with _ | ⟨⟨a, b⟩, tl⟩
  · rw [hm] at h
    cases h
  · rcases tl with _ | ⟨y, tl2⟩
    · have hmem : (a, b) ∈ findIterAux f ([] : List Char).length none := by
        have : findIterAux f ([] : List Char).length none = regexFindIter f := rfl
        rw [this, hm]
        exact List.mem_singleton.mpr rfl
      obtain ⟨ds, rest, hpos, hdig, hdrop, hb⟩ :=
        findIterAux_sound f [] none trivial a b hmem
      rw [List.nil_append] at hdrop
      have halen : a < f.length := by
        have := congrArg List.length hdrop
        simp only [List.length_drop, List.length_cons] at this
        omega
      have hdrop1 : f.drop (a + 1) = ds ++ ')' :: rest := by
        have h1 : f.drop (a + 1) = (f.drop a).drop 1 := by
          rw [List.drop_drop, Nat.add_comm]
        rw [h1, hdrop, List.drop_succ_cons, List.drop_zero]
      have hdropb : f.drop (b - 1) = ')' :: rest := by
        have h1 : f.drop (b - 1) = (f.drop (a + 1)).drop ds.length := by
          rw [List.drop_drop]
          congr 1
          omega
        rw [h1, hdrop1]
        have := List.drop_left ds (')' :: rest)
        exact this
      have hslice : sliceChars f (a + 1) (b - 1) = ds := by
        unfold sliceChars
        rw [hdrop1, show b - 1 - (a + 1) = ds.length from by omega]
        exact List.take_left ds (')' :: rest)
      have htake : f.take (a + 1) ++ (ds ++ f.drop (b - 1)) = f := by
        rw [hdropb, ← hdrop1, List.take_append_drop]
      have htakelast : (f.take (a + 1)).getLast? = some '(' := by
        have hsplit : f.take (a + 1) = f.take a ++ ['('] := by
          conv_lhs => rw [← List.take_append_drop a f]
          rw [hdrop, List.take_append_eq_append_take, List.take_take]
          have hlena : (f.take a).length = a := by
            rw [List.length_take]
            omega
          rw [hlena, show min (a + 1) a = a from by omega,
            show a + 1 - a = 1 from by omega]
          rfl
        rw [hsplit, List.getLast?_concat]
      have hindices :
          get_number_group_indices_from_actual_filename f = .ok (a + 1, b - 1) := by
        unfold get_number_group_indices_from_actual_filename
        rw [hm]
      refine ⟨a, b, ds, rest, rfl, hindices, hdrop, hpos, hdig, hb, hslice, htake,
        htakelast, hdropb, ?_⟩
      intro hbound
      have hparse : parseU64 ds = some (digitsToNat ds) := by
        unfold parseU64
        rw [if_pos ⟨(by intro hx; rw [hx] at hpos; simp at hpos), hdig⟩, if_pos hbound]
      refine ⟨{ original_filename := f,
                number_group_indices := (a + 1, b - 1),
                number_group_str := ds,
                number_group_value := digitsToNat ds }, ?_, rfl, rfl, rfl, rfl, ?_⟩
      · unfold FileInfo.new
        rw [hindices]
        simp only [hslice, hparse]
      · simp only [prefix_of, suffix_of]
        exact htake
    · rw [hm] at h
      simp at h

/-- C8 witness: the amended round-trip evaluated on `img (100).jpg`. -/
theorem c8_amended_witness :
    ∃ a b ds rest,
      regexFindIter "img (100).jpg".toList = [(a, b)] ∧
      get_number_group_indices_from_actual_filename "img (100).jpg".toList =
        .ok (a + 1, b - 1) ∧
      "img (100).jpg".toList.drop a = '(' :: (ds ++ ')' :: rest) ∧
      0 < ds.length ∧ ds.all Char.isDigit = true ∧ b = a + ds.length + 2 ∧
      sliceChars "img (100).jpg".toList (a + 1) (b - 1) = ds ∧
      "img (100).jpg".toList.take (a + 1) ++
        (ds ++ "img (100).jpg".toList.drop (b - 1)) = "img (100).jpg".toList ∧
      ("img (100).jpg".toList.take (a + 1)).getLast? = some '(' ∧
      "img (100).jpg".toList.drop (b - 1) = ')' :: rest ∧
      (digitsToNat ds < 2 ^ 64 →
        ∃ fi, FileInfo.new "img (100).jpg".toList = .ok fi ∧
          fi.original_filename = "img (100).jpg".toList ∧
          fi.number_group_indices = (a + 1, b - 1) ∧
          fi.number_group_str = ds ∧
          fi.number_group_value = digitsToNat ds ∧
          prefix_of fi ++ (fi.number_group_str ++ suffix_of fi) =
            "img (100).jpg".toList) :=
  c8_amended "img (100).jpg".toList (by decide)

/-! ### C9 -/

/-- C9: confirmed.  Per-file parse failures (no group, several groups,
non-`u64` digits) only exclude the offending file: the scan stage always
succeeds and returns exactly the successfully parsed files, in order;
only other error kinds — which arise before the scan, e.g. an unreadable
directory — abort the operation. -/
theorem c9_skip_not_fatal :
    (∀ names : List (List Char),
      files_to_nflz_file_info_vec names =
        .ok (names.filterMap (fun p => (FileInfo.new p).toOption))) ∧
    (∀ (dir : List Char) (e : IoError),
      NFLZAssistant.new dir (.error e) = .error (.CantReadDirectory dir e)) := by
  constructor
  · intro names
    induction names with
    | nil => rfl
    | cons p rest ih =>
      rcases hp : FileInfo.new p with e | fi
      · rcases FileInfo.new_error_kinds p e hp with ⟨f, hf⟩ | ⟨v, hv⟩
        · subst hf
          simp only [files_to_nflz_file_info_vec, hp, List.filterMap_cons, Except.toOption, ih]
        · subst hv
          simp only [files_to_nflz_file_info_vec, hp, List.filterMap_cons, Except.toOption, ih]
      · simp only [files_to_nflz_file_info_vec, hp, List.filterMap_cons, Except.toOption, ih,
          Except.map]
  · intro dir e
    rfl

/-! ### C10 -/

/-- C10: confirmed.  The parser accepts an all-zero number group
(`img (0).jpg` parses with value 0), and when every parsed file of the
directory has value 0 the shared width `find_max_digits` is 0, so
building the first rename advice trips `assert_ne!(max_digits, 0)` and
`NFLZAssistant::new` panics instead of returning an error value or an
empty rename set (`.ok none` is the panic in this embedding). -/
theorem c10_zero_values_panic :
    ((FileInfo.new "img (0).jpg".toList).toOption.map (·.number_group_value) = some 0) ∧
    (∀ (names : List (List Char)) (files : List FileInfo),
      files_to_nflz_file_info_vec names = .ok files →
      files ≠ [] →
      (∀ fi ∈ files, fi.number_group_value = 0) →
      NFLZAssistant.of_files names = .ok none) := by
  constructor
  · decide
  · intro names files hfiles hne hzero
    have hmax : find_max_digits files = 0 := by
      unfold find_max_digits
      have : (files.map (·.number_group_value)).foldl max 0 = 0 := by
        refine foldl_max_zeroes _ ?_ 0
        intro x hx
        rcases List.mem_map.mp hx with ⟨fi, hfi, hv⟩
        rw [← hv]
        exact hzero fi hfi
      rw [this]
      rfl
    unfold NFLZAssistant.of_files
    rw [hfiles]
    simp only [hmax]
    rcases files with _ | ⟨fi, tl⟩
    · exact absurd rfl hne
    · have hpanic : FileInfoWithRenameAdvice.new fi 0 = none := by
        unfold FileInfoWithRenameAdvice.new
        simp
      simp [List.mapM, List.mapM.loop, hpanic]

/-- C10 witness: a directory containing only `img (0).jpg` makes the
assistant construction panic. -/
theorem c10_zero_values_panic_witness :
    NFLZAssistant.of_files ["img (0).jpg".toList] = .ok none :=
  c10_zero_values_panic.2 ["img (0).jpg".toList]
    [{ original_filename := "img (0).jpg".toList,
       number_group_indices := (5, 6),
       number_group_str := "0".toList,
       number_group_value := 0 }]
    (by decide) (by decide) (by decide)

end NFLZ
